import Mathlib

/-!
Verification of the MVE joint bilateral depth-map filter
(`src/libs/mve/bilateral.h`) against its natural-language specification.

The two functions under study are `median_filter` and
`depthmap_bilateral_filter`.  Machine floats are modelled by exact real
numbers; a C++ function that may throw `std::invalid_argument` is modelled
as returning `Except String Image`, with `Except.error` standing for the
raised exception.  The generic math primitives (`math::clamp`,
`math::gaussian`, `math::gaussian_2d`, `math::Accum`, `median_filter_2d`)
are declared in MVE headers that are not part of this repository snapshot,
so they are modelled from the specification, as flagged on each one.
-/

namespace MVE

/-- Modelled from the spec: `math::clamp(value, lo, hi)` (math/functions.h,
not in src/) — clips a scalar of any ordered type into `[lo, hi]`,
returning `lo` when `value < lo`, `hi` when `value > hi`, else `value`. -/
def clamp {α : Type} [LinearOrder α] (v lo hi : α) : α :=
  if v < lo then lo else if hi < v then hi else v

/-- Modelled from the spec: `math::gaussian(x, sigma)` (math/functions.h,
not in src/) — the unnormalized univariate zero-mean Gaussian density
`exp (-x² / (2 σ²))`. -/
noncomputable def gaussian (x sigma : ℝ) : ℝ :=
  Real.exp (-(x * x) / (2 * sigma * sigma))

/-- Modelled from the spec: `math::gaussian_2d(dx, dy, sx, sy)`
(math/functions.h, not in src/) — the unnormalized 2-D zero-mean Gaussian
density `exp (-dx² / (2 sx²) - dy² / (2 sy²))`. -/
noncomputable def gaussian_2d (x y sx sy : ℝ) : ℝ :=
  Real.exp (-(x * x) / (2 * sx * sx) - (y * y) / (2 * sy * sy))

/-- `mve::FloatImage`: a rectangular grid of real-valued samples with fixed
`width`, `height`, `channels`, addressed by `(x, y, c)`.  The cell payload
is modelled as a total function; only indices below the bounds are
meaningful. -/
structure Image where
  width : ℕ
  height : ℕ
  channels : ℕ
  data : ℕ → ℕ → ℕ → ℝ

/-- `img->at(x, y, c)`.  The filter only ever calls this with clamped,
hence non-negative and in-range, integer coordinates. -/
def Image.valueAt (img : Image) (x y : ℤ) (c : ℕ) : ℝ :=
  img.data x.toNat y.toNat c

/-- Modelled from the spec: `math::Accum<float>` (math/accum.h, not in
src/) — the weighted accumulator: a running weighted sum `v` and running
weight total `w`. -/
structure Accum where
  v : ℝ
  w : ℝ

/-- `Accum::add(value, weight)`: `v += value * weight; w += weight`. -/
def Accum.add (a : Accum) (value weight : ℝ) : Accum :=
  { v := a.v + value * weight, w := a.w + weight }

/-- `Accum::normalized()`: the finalized weighted average `v / w`. -/
noncomputable def Accum.normalized (a : Accum) : ℝ :=
  a.v / a.w

/-- `int const ci_x = math::clamp(x + kx, 0, w - 1)` — the clamped guide
image coordinate for window offset `k` around centre coordinate `x`. -/
def ci_coord (w : ℕ) (x : ℕ) (k : ℤ) : ℤ :=
  clamp ((x : ℤ) + k) 0 ((w : ℤ) - 1)

/-- `int const dm_x = math::clamp(scale_x * ci_x, 0.f, dm_w - 1.f)` — the
depth-grid coordinate matching guide coordinate `cix`: scale, clamp into
`[0, dmw-1]` in real arithmetic, then truncate to an integer (the value is
non-negative, so C++ truncation towards zero is the floor). -/
noncomputable def dm_coord (dmw : ℕ) (scale : ℝ) (cix : ℤ) : ℤ :=
  ⌊clamp (scale * (cix : ℝ)) 0 ((dmw : ℝ) - 1)⌋

/-- The depth-grid x coordinate sampled for output column `x` and window
offset `kx`, with `scale_x = dm_w / w` as in the source. -/
noncomputable def mappedX (dm ci : Image) (x : ℕ) (kx : ℤ) : ℤ :=
  dm_coord dm.width ((dm.width : ℝ) / (ci.width : ℝ)) (ci_coord ci.width x kx)

/-- The depth-grid y coordinate sampled for output row `y` and window
offset `ky`, with `scale_y = dm_h / h` as in the source. -/
noncomputable def mappedY (dm ci : Image) (y : ℕ) (ky : ℤ) : ℤ :=
  dm_coord dm.height ((dm.height : ℝ) / (ci.height : ℝ)) (ci_coord ci.height y ky)

/-- `dm->at(dm_x, dm_y, 0)` — the depth sample examined for window offset
`k = (kx, ky)` of output pixel `(x, y)`. -/
noncomputable def dmSample (dm ci : Image) (x y : ℕ) (k : ℤ × ℤ) : ℝ :=
  dm.valueAt (mappedX dm ci x k.1) (mappedY dm ci y k.2) 0

/-- The combined weight of a non-skipped neighbor: the running product
starts at `1`, is multiplied by the spatial term
`math::gaussian_2d(kx, ky, sigma, sigma)`, then by one range term
`math::gaussian(ci(ci_x, ci_y, c) - ci(x, y, c), 0.1)` per guide
channel `c`, exactly as the loop in the source does. -/
noncomputable def neighbor_weight (ci : Image) (sigma : ℝ) (x y : ℕ)
    (kx ky cix ciy : ℤ) : ℝ :=
  (List.range ci.channels).foldl
    (fun w c => w * gaussian (ci.valueAt cix ciy c - ci.valueAt x y c) 0.1)
    (1 * gaussian_2d (kx : ℝ) (ky : ℝ) sigma sigma)

/-- The body of the inner window loop: skip the neighbor when the depth
sample is the sentinel `0.0`, otherwise accumulate
`(depth value, combined weight)`. -/
noncomputable def bilateralStep (dm ci : Image) (sigma : ℝ) (x y : ℕ)
    (a : Accum) (k : ℤ × ℤ) : Accum :=
  if dmSample dm ci x y k = 0 then a
  else a.add (dmSample dm ci x y k)
    (neighbor_weight ci sigma x y k.1 k.2
      (ci_coord ci.width x k.1) (ci_coord ci.height y k.2))

/-- The window offsets `(kx, ky)` for `ky` from `-kernel_size` to
`kernel_size` (outer loop) and `kx` likewise (inner loop), in source
iteration order. -/
def windowOffsets (ks : ℕ) : List (ℤ × ℤ) :=
  (List.range (2 * ks + 1)).flatMap fun (j : ℕ) =>
    (List.range (2 * ks + 1)).map fun (i : ℕ) =>
      (((i : ℤ) - (ks : ℤ), (j : ℤ) - (ks : ℤ)) : ℤ × ℤ)

/-- The accumulator state after the full window loop of output pixel
`(x, y)`: fold `bilateralStep` over all offsets starting from
`math::Accum<float>(0.0f)`, i.e. `v = 0, w = 0`. -/
noncomputable def bilateralAccum (dm ci : Image) (sigma : ℝ) (ks : ℕ)
    (x y : ℕ) : Accum :=
  (windowOffsets ks).foldl (bilateralStep dm ci sigma x y) { v := 0, w := 0 }

/-- The output image of `depthmap_bilateral_filter`: created with the
guide image's width and height and one channel, filled with `0`, and a
pixel is overwritten with `accum.normalized()` exactly when
`accum.w > 0`. -/
noncomputable def bilateral_out (dm ci : Image) (sigma : ℝ) (ks : ℕ) : Image :=
  { width := ci.width
    height := ci.height
    channels := 1
    data := fun x y c =>
      if x < ci.width ∧ y < ci.height ∧ c = 0 then
        if 0 < (bilateralAccum dm ci sigma ks x y).w then
          (bilateralAccum dm ci sigma ks x y).normalized
        else 0
      else 0 }

/-- `depthmap_bilateral_filter(dm, ci, sigma, kernel_size)`.  The body
contains no `throw`, so in the exception-as-`Except` model it always
returns `Except.ok` of the computed image. -/
noncomputable def depthmap_bilateral_filter (dm ci : Image) (sigma : ℝ)
    (ks : ℕ) : Except String Image :=
  Except.ok (bilateral_out dm ci sigma ks)

/-- The output grid built by `median_filter`: created with the input's
width and height and one channel, its cells written by the external
windowed-median primitive.  Modelled from the spec: `median_filter_2d`
(declared in filter.h, not in src/; the spec leaves its selection
algorithm unspecified) is taken as an explicit argument `mf2d` giving the
cell contents it writes, applied to `(w, h, size, size, 0, input data)`
as in the source. -/
def median_out
    (mf2d : ℕ → ℕ → ℝ → ℝ → ℝ → (ℕ → ℕ → ℕ → ℝ) → ℕ → ℕ → ℕ → ℝ)
    (img : Image) (size : ℝ) : Image :=
  { width := img.width
    height := img.height
    channels := 1
    data := mf2d img.width img.height size size 0 img.data }

/-- `median_filter(in, size)`: a null input pointer raises
`std::invalid_argument("Null image given")`, modelled as `Except.error`;
otherwise a fresh `w × h × 1` grid is returned whose cells come from
`median_filter_2d` (via `median_out`). -/
def median_filter
    (mf2d : ℕ → ℕ → ℝ → ℝ → ℝ → (ℕ → ℕ → ℕ → ℝ) → ℕ → ℕ → ℕ → ℝ)
    (input : Option Image) (size : ℝ) : Except String Image :=
  match input with
  | none => Except.error "Null image given"
  | some img => Except.ok (median_out mf2d img size)

/-- A 1×1 single-channel image whose only cell is `0` — an all-sentinel
depth map and, used as a guide, a uniform guide image. -/
def imgZero : Image :=
  { width := 1, height := 1, channels := 1, data := fun _ _ _ => 0 }

/-- A 1×1 single-channel image whose only cell is `5` — a constant valid
depth map. -/
def imgFive : Image :=
  { width := 1, height := 1, channels := 1, data := fun _ _ _ => 5 }

/-- A 2×1 single-channel uniform guide image (both cells `0`). -/
def guideTwo : Image :=
  { width := 2, height := 1, channels := 1, data := fun _ _ _ => 0 }

/-- A 2×1 depth map whose left cell is the valid depth `5` and whose right
cell is the sentinel `0`. -/
def depthTwo : Image :=
  { width := 2, height := 1, channels := 1,
    data := fun a _ _ => if a = 0 then 5 else 0 }

/-! ### Helper lemmas -/

theorem clamp_bounds {α : Type} [LinearOrder α] (v lo hi : α) (h : lo ≤ hi) :
    lo ≤ clamp v lo hi ∧ clamp v lo hi ≤ hi := by
  unfold clamp
  split_ifs with h1 h2
  · exact ⟨le_refl _, h⟩
  · exact ⟨h, le_refl _⟩
  · exact ⟨le_of_not_lt h1, le_of_not_lt h2⟩

theorem clamp_eq_self {α : Type} [LinearOrder α] (v lo hi : α)
    (h1 : lo ≤ v) (h2 : v ≤ hi) : clamp v lo hi = v := by
  unfold clamp
  rw [if_neg (not_lt.mpr h1), if_neg (not_lt.mpr h2)]

theorem ci_coord_bounds (w : ℕ) (hw : 0 < w) (x : ℕ) (k : ℤ) :
    0 ≤ ci_coord w x k ∧ ci_coord w x k < (w : ℤ) := by
  unfold ci_coord
  have h : (0 : ℤ) ≤ (w : ℤ) - 1 := by
    have hw1 : (1 : ℤ) ≤ (w : ℤ) := by exact_mod_cast hw
    omega
  obtain ⟨h1, h2⟩ := clamp_bounds ((x : ℤ) + k) 0 ((w : ℤ) - 1) h
  exact ⟨h1, by omega⟩

theorem ci_coord_center (w : ℕ) (x : ℕ) (hx : x < w) :
    ci_coord w x 0 = (x : ℤ) := by
  unfold ci_coord
  rw [add_zero]
  exact clamp_eq_self _ _ _ (Int.ofNat_nonneg x) (by omega)

theorem dm_coord_bounds (dmw : ℕ) (hdm : 0 < dmw) (scale : ℝ) (cix : ℤ) :
    0 ≤ dm_coord dmw scale cix ∧ dm_coord dmw scale cix < (dmw : ℤ) := by
  have h : (0 : ℝ) ≤ (dmw : ℝ) - 1 := by
    have : (1 : ℝ) ≤ (dmw : ℝ) := by exact_mod_cast hdm
    linarith
  obtain ⟨h1, h2⟩ := clamp_bounds (scale * (cix : ℝ)) 0 ((dmw : ℝ) - 1) h
  unfold dm_coord
  refine ⟨Int.floor_nonneg.mpr h1, ?_⟩
  have h3 := Int.floor_le_floor h2
  have h5 : ⌊(dmw : ℝ) - 1⌋ = (dmw : ℤ) - 1 := by
    rw [show ((dmw : ℝ) - 1) = (((dmw : ℤ) - 1 : ℤ) : ℝ) by push_cast; ring,
      Int.floor_intCast]
  rw [h5] at h3
  omega

theorem foldl_fixed {α β : Type} (f : α → β → α) (hf : ∀ a b, f a b = a) :
    ∀ (l : List β) (a : α), l.foldl f a = a := by
  intro l
  induction l with
  | nil => intro a; rfl
  | cons hd tl ih => intro a; rw [List.foldl_cons, hf]; exact ih a

theorem foldl_mul_range (f : ℕ → ℝ) (a : ℝ) (n : ℕ) :
    (List.range n).foldl (fun w c => w * f c) a =
      a * ∏ c ∈ Finset.range n, f c := by
  induction n with
  | zero => simp
  | succ n ih =>
      rw [List.range_succ, List.foldl_append, ih, Finset.prod_range_succ,
        List.foldl_cons, List.foldl_nil, mul_assoc]

theorem gaussian_pos (x sigma : ℝ) : 0 < gaussian x sigma :=
  Real.exp_pos _

theorem gaussian_2d_pos (x y sx sy : ℝ) : 0 < gaussian_2d x y sx sy :=
  Real.exp_pos _

theorem neighbor_weight_closed (ci : Image) (sigma : ℝ) (x y : ℕ)
    (kx ky cix ciy : ℤ) :
    neighbor_weight ci sigma x y kx ky cix ciy =
      gaussian_2d (kx : ℝ) (ky : ℝ) sigma sigma *
        ∏ c ∈ Finset.range ci.channels,
          gaussian (ci.valueAt cix ciy c - ci.valueAt x y c) 0.1 := by
  unfold neighbor_weight
  rw [foldl_mul_range, one_mul]

theorem neighbor_weight_pos (ci : Image) (sigma : ℝ) (x y : ℕ)
    (kx ky cix ciy : ℤ) :
    0 < neighbor_weight ci sigma x y kx ky cix ciy := by
  rw [neighbor_weight_closed]
  exact mul_pos (gaussian_2d_pos _ _ _ _)
    (Finset.prod_pos fun c _ => gaussian_pos _ _)

theorem windowOffsets_zero : windowOffsets 0 = [(0, 0)] := by
  decide

theorem windowOffsets_mem_head (ks : ℕ) :
    (-(ks : ℤ), -(ks : ℤ)) ∈ windowOffsets ks := by
  unfold windowOffsets
  refine List.mem_flatMap.mpr ⟨0, ?_, List.mem_map.mpr ⟨0, ?_, ?_⟩⟩
  · simp
  · simp
  · simp

theorem windowOffsets_ne_nil (ks : ℕ) : windowOffsets ks ≠ [] := by
  intro h
  have hmem := windowOffsets_mem_head ks
  rw [h] at hmem
  simp at hmem

theorem dmSample_eq_data (dm ci : Image) (x y : ℕ) (k : ℤ × ℤ) :
    dmSample dm ci x y k =
      dm.data (mappedX dm ci x k.1).toNat (mappedY dm ci y k.2).toNat 0 :=
  rfl

theorem bilateralStep_skip (dm ci : Image) (sigma : ℝ) (x y : ℕ)
    (a : Accum) (k : ℤ × ℤ) (h : dmSample dm ci x y k = 0) :
    bilateralStep dm ci sigma x y a k = a := by
  unfold bilateralStep
  rw [if_pos h]

theorem bilateralStep_accum (dm ci : Image) (sigma : ℝ) (x y : ℕ)
    (a : Accum) (k : ℤ × ℤ) (h : dmSample dm ci x y k ≠ 0) :
    bilateralStep dm ci sigma x y a k =
      a.add (dmSample dm ci x y k)
        (neighbor_weight ci sigma x y k.1 k.2
          (ci_coord ci.width x k.1) (ci_coord ci.height y k.2)) := by
  unfold bilateralStep
  rw [if_neg h]

theorem accum_const_fold (dm ci : Image) (sigma k : ℝ) (x y : ℕ)
    (hk : k ≠ 0) (hall : ∀ a b : ℕ, dm.data a b 0 = k) :
    ∀ (l : List (ℤ × ℤ)) (a : Accum), a.v = k * a.w →
      (l.foldl (bilateralStep dm ci sigma x y) a).v =
          k * (l.foldl (bilateralStep dm ci sigma x y) a).w ∧
        a.w ≤ (l.foldl (bilateralStep dm ci sigma x y) a).w ∧
        (l ≠ [] → a.w < (l.foldl (bilateralStep dm ci sigma x y) a).w) := by
  intro l
  induction l with
  | nil =>
      intro a ha
      exact ⟨ha, le_refl _, fun h => absurd rfl h⟩
  | cons hd tl ih =>
      intro a ha
      have hs : dmSample dm ci x y hd = k := by
        rw [dmSample_eq_data]; exact hall _ _
      have hwpos : 0 < neighbor_weight ci sigma x y hd.1 hd.2
          (ci_coord ci.width x hd.1) (ci_coord ci.height y hd.2) :=
        neighbor_weight_pos _ _ _ _ _ _ _ _
      rw [List.foldl_cons,
        bilateralStep_accum dm ci sigma x y a hd (by rw [hs]; exact hk), hs]
      obtain ⟨ih1, ih2, _⟩ :=
        ih (a.add k (neighbor_weight ci sigma x y hd.1 hd.2
          (ci_coord ci.width x hd.1) (ci_coord ci.height y hd.2)))
          (by unfold Accum.add; simp only; rw [ha]; ring)
      have haw : a.w < (a.add k (neighbor_weight ci sigma x y hd.1 hd.2
          (ci_coord ci.width x hd.1) (ci_coord ci.height y hd.2))).w := by
        unfold Accum.add
        simp only
        linarith
      exact ⟨ih1, le_trans (le_of_lt haw) ih2,
        fun _ => lt_of_lt_of_le haw ih2⟩

/-! ### Claim theorems -/

/-- C2: if the depth-grid sample at the mapped (clamped) coordinate of a
window offset equals the sentinel `0.0`, the neighbor is skipped entirely:
the loop body leaves the accumulator unchanged, so no weight and no value
is ever contributed by a sentinel cell. -/
theorem C2_sentinel_skip (dm ci : Image) (sigma : ℝ) (x y : ℕ)
    (a : Accum) (k : ℤ × ℤ) (h : dmSample dm ci x y k = 0) :
    bilateralStep dm ci sigma x y a k = a :=
  bilateralStep_skip dm ci sigma x y a k h

/-- Witness for C2 at a concrete all-sentinel depth map. -/
theorem C2_sentinel_skip_witness :
    dmSample imgZero imgZero 0 0 (0, 0) = 0 ∧
      bilateralStep imgZero imgZero 1 0 0 { v := 0, w := 0 } (0, 0) =
        { v := 0, w := 0 } :=
  ⟨rfl, C2_sentinel_skip imgZero imgZero 1 0 0 { v := 0, w := 0 } (0, 0) rfl⟩

/-- C4: if every cell of the depth map is the sentinel `0.0`, every cell of
the output of `depthmap_bilateral_filter` is `0.0`, for any guide image,
`sigma` and `kernel_size`. -/
theorem C4_all_invalid_propagation (dm ci : Image) (sigma : ℝ) (ks : ℕ)
    (hall : ∀ a b : ℕ, dm.data a b 0 = 0) (x y c : ℕ) :
    (bilateral_out dm ci sigma ks).data x y c = 0 := by
  have hacc : bilateralAccum dm ci sigma ks x y = { v := 0, w := 0 } := by
    unfold bilateralAccum
    exact foldl_fixed _
      (fun a k => bilateralStep_skip dm ci sigma x y a k
        (by rw [dmSample_eq_data]; exact hall _ _)) _ _
  unfold bilateral_out
  simp only
  split_ifs with h1 h2
  · rw [hacc] at h2
    exact absurd h2 (lt_irrefl 0)
  · rfl
  · rfl

/-- Witness for C4 at a concrete all-sentinel depth map. -/
theorem C4_all_invalid_propagation_witness :
    (∀ a b : ℕ, imgZero.data a b 0 = 0) ∧
      (bilateral_out imgZero guideTwo 1 1).data 0 0 0 = 0 :=
  ⟨fun _ _ => rfl,
    C4_all_invalid_propagation imgZero guideTwo 1 1 (fun _ _ => rfl) 0 0 0⟩

/-- C5: for images of positive dimensions, every guide-image coordinate
sampled in the window lies in `[0, guide_width-1] × [0, guide_height-1]`
and every depth-grid lookup coordinate lies in
`[0, depth_width-1] × [0, depth_height-1]`, for every pixel, window offset
and `kernel_size ≥ 0`; no out-of-bounds grid access occurs. -/
theorem C5_coordinates_in_bounds (dm ci : Image)
    (hw : 0 < ci.width) (hh : 0 < ci.height)
    (hdw : 0 < dm.width) (hdh : 0 < dm.height) (x y : ℕ) (kx ky : ℤ) :
    (0 ≤ ci_coord ci.width x kx ∧ ci_coord ci.width x kx < (ci.width : ℤ)) ∧
    (0 ≤ ci_coord ci.height y ky ∧ ci_coord ci.height y ky < (ci.height : ℤ)) ∧
    (0 ≤ mappedX dm ci x kx ∧ mappedX dm ci x kx < (dm.width : ℤ)) ∧
    (0 ≤ mappedY dm ci y ky ∧ mappedY dm ci y ky < (dm.height : ℤ)) :=
  ⟨ci_coord_bounds ci.width hw x kx,
    ci_coord_bounds ci.height hh y ky,
    dm_coord_bounds dm.width hdw _ _,
    dm_coord_bounds dm.height hdh _ _⟩

/-- Witness for C5 at concrete 1×1 images, corner pixel and offset 1. -/
theorem C5_coordinates_in_bounds_witness :
    (0 < imgZero.width ∧ 0 < imgZero.height) ∧
      ((0 ≤ ci_coord imgZero.width 0 1 ∧
          ci_coord imgZero.width 0 1 < (imgZero.width : ℤ)) ∧
        (0 ≤ ci_coord imgZero.height 0 1 ∧
          ci_coord imgZero.height 0 1 < (imgZero.height : ℤ)) ∧
        (0 ≤ mappedX imgFive imgZero 0 1 ∧
          mappedX imgFive imgZero 0 1 < (imgFive.width : ℤ)) ∧
        (0 ≤ mappedY imgFive imgZero 0 1 ∧
          mappedY imgFive imgZero 0 1 < (imgFive.height : ℤ))) :=
  ⟨⟨by decide, by decide⟩,
    C5_coordinates_in_bounds imgFive imgZero
      (by decide) (by decide) (by decide) (by decide) 0 0 1 1⟩

/-- C6: the weight of a non-skipped neighbor equals the isotropic 2-D
zero-mean Gaussian at `(kx, ky)` with standard deviation `sigma` on both
axes, times, for each guide channel `c`, the 1-D zero-mean Gaussian with
fixed standard deviation `0.1` of the guide difference between the clamped
neighbor coordinate and the centre pixel; moreover the 2-D term is the
product of the two axis-wise zero-mean Gaussians with deviation `sigma`. -/
theorem C6_weight_formula (ci : Image) (sigma : ℝ) (x y : ℕ)
    (kx ky cix ciy : ℤ) :
    neighbor_weight ci sigma x y kx ky cix ciy =
      gaussian_2d (kx : ℝ) (ky : ℝ) sigma sigma *
        ∏ c ∈ Finset.range ci.channels,
          gaussian (ci.valueAt cix ciy c - ci.valueAt x y c) 0.1 ∧
    gaussian_2d (kx : ℝ) (ky : ℝ) sigma sigma =
      gaussian (kx : ℝ) sigma * gaussian (ky : ℝ) sigma := by
  refine ⟨neighbor_weight_closed ci sigma x y kx ky cix ciy, ?_⟩
  unfold gaussian gaussian_2d
  rw [← Real.exp_add]
  congr 1
  ring

/-- C9: the combined weight of a non-skipped neighbor is strictly
positive — Gaussians of real arguments never vanish, so a neighbor's
contribution can only be rejected by the sentinel check, never by the
weight reaching zero. -/
theorem C9_weight_strictly_positive (ci : Image) (sigma : ℝ) (x y : ℕ)
    (kx ky cix ciy : ℤ) :
    0 < neighbor_weight ci sigma x y kx ky cix ciy :=
  neighbor_weight_pos ci sigma x y kx ky cix ciy

/-- C1: for any depth map and guide image, `depthmap_bilateral_filter`
returns (without raising) an image with the guide's width and height and
exactly one channel; each in-range cell is overwritten with the
accumulated weighted average exactly when the accumulated weight total is
strictly positive, and keeps its initial sentinel value `0.0` otherwise. -/
theorem C1_output_postcondition (dm ci : Image) (sigma : ℝ) (ks : ℕ)
    (x y : ℕ) (hx : x < ci.width) (hy : y < ci.height) :
    depthmap_bilateral_filter dm ci sigma ks =
      Except.ok (bilateral_out dm ci sigma ks) ∧
    (bilateral_out dm ci sigma ks).width = ci.width ∧
    (bilateral_out dm ci sigma ks).height = ci.height ∧
    (bilateral_out dm ci sigma ks).channels = 1 ∧
    (0 < (bilateralAccum dm ci sigma ks x y).w →
      (bilateral_out dm ci sigma ks).data x y 0 =
        (bilateralAccum dm ci sigma ks x y).normalized) ∧
    (¬ 0 < (bilateralAccum dm ci sigma ks x y).w →
      (bilateral_out dm ci sigma ks).data x y 0 = 0) := by
  refine ⟨rfl, rfl, rfl, rfl, ?_, ?_⟩ <;> intro h <;> unfold bilateral_out <;>
    simp only
  · rw [if_pos ⟨hx, hy, trivial⟩, if_pos h]
  · rw [if_pos ⟨hx, hy, trivial⟩, if_neg h]

/-- Witness for C1 at concrete 1×1 images. -/
theorem C1_output_postcondition_witness :
    0 < imgZero.width ∧ 0 < imgZero.height ∧
      (depthmap_bilateral_filter imgFive imgZero 1 1 =
          Except.ok (bilateral_out imgFive imgZero 1 1) ∧
        (bilateral_out imgFive imgZero 1 1).width = imgZero.width ∧
        (bilateral_out imgFive imgZero 1 1).height = imgZero.height ∧
        (bilateral_out imgFive imgZero 1 1).channels = 1 ∧
        (0 < (bilateralAccum imgFive imgZero 1 1 0 0).w →
          (bilateral_out imgFive imgZero 1 1).data 0 0 0 =
            (bilateralAccum imgFive imgZero 1 1 0 0).normalized) ∧
        (¬ 0 < (bilateralAccum imgFive imgZero 1 1 0 0).w →
          (bilateral_out imgFive imgZero 1 1).data 0 0 0 = 0)) :=
  ⟨by decide, by decide,
    C1_output_postcondition imgFive imgZero 1 1 0 0 (by decide) (by decide)⟩

/-- C3 as stated is false: in `depthTwo` every valid (non-sentinel) cell
equals the constant `5 > 0`, yet the output at pixel `(1, 0)` is `0`, not
`5` — that pixel's (kernel_size `0`) window maps only to the sentinel
cell, so nothing is accumulated and the sentinel is left in place. -/
theorem C3_counterexample :
    (∀ a b c : ℕ, depthTwo.data a b c ≠ 0 → depthTwo.data a b c = 5) ∧
      (0 : ℝ) < 5 ∧
      (bilateral_out depthTwo guideTwo 1 0).data 1 0 0 ≠ 5 := by
  refine ⟨?_, by norm_num, ?_⟩
  · intro a b c h
    by_cases ha : a = 0
    · simp [depthTwo, ha]
    · exfalso
      apply h
      simp [depthTwo, ha]
  · have hmx : mappedX depthTwo guideTwo 1 0 = 1 := by
      have hc : ci_coord guideTwo.width 1 0 = 1 := by decide
      unfold mappedX
      rw [hc]
      unfold dm_coord clamp
      norm_num [depthTwo, guideTwo]
    have hmy : mappedY depthTwo guideTwo 0 0 = 0 := by
      have hc : ci_coord guideTwo.height 0 0 = 0 := by decide
      unfold mappedY
      rw [hc]
      unfold dm_coord clamp
      norm_num [depthTwo, guideTwo]
    have hs : dmSample depthTwo guideTwo 1 0 (0, 0) = 0 := by
      rw [dmSample_eq_data]
      show depthTwo.data (mappedX depthTwo guideTwo 1 0).toNat
        (mappedY depthTwo guideTwo 0 0).toNat 0 = 0
      rw [hmx, hmy]
      simp [depthTwo]
    have hacc : bilateralAccum depthTwo guideTwo 1 0 1 0 = { v := 0, w := 0 } := by
      unfold bilateralAccum
      rw [windowOffsets_zero, List.foldl_cons, List.foldl_nil]
      exact bilateralStep_skip depthTwo guideTwo 1 1 0 { v := 0, w := 0 } (0, 0) hs
    have hout : (bilateral_out depthTwo guideTwo 1 0).data 1 0 0 = 0 := by
      unfold bilateral_out
      simp only
      rw [if_pos ⟨by decide, by decide, trivial⟩, hacc]
      norm_num
    rw [hout]
    norm_num

/-- C3 (amended): for any guide image and any depth map all of whose cells
hold the same constant `k > 0` (so no cell is the sentinel), the output of
`depthmap_bilateral_filter` equals `k` at every pixel — the weighted
average of a constant is that constant, independent of the weights. -/
theorem C3_constant_depth_amended (dm ci : Image) (sigma k : ℝ) (ks : ℕ)
    (x y : ℕ) (hk : 0 < k) (hall : ∀ a b : ℕ, dm.data a b 0 = k)
    (hx : x < ci.width) (hy : y < ci.height) :
    (bilateral_out dm ci sigma ks).data x y 0 = k := by
  have hfold := accum_const_fold dm ci sigma k x y (ne_of_gt hk) hall
    (windowOffsets ks) { v := 0, w := 0 } (by simp)
  have hacc : bilateralAccum dm ci sigma ks x y =
      (windowOffsets ks).foldl (bilateralStep dm ci sigma x y)
        { v := 0, w := 0 } := rfl
  obtain ⟨h1, _, h3⟩ := hfold
  have hww : 0 < (bilateralAccum dm ci sigma ks x y).w := by
    rw [hacc]
    exact h3 (windowOffsets_ne_nil ks)
  have hvv : (bilateralAccum dm ci sigma ks x y).v =
      k * (bilateralAccum dm ci sigma ks x y).w := by
    rw [hacc]
    exact h1
  unfold bilateral_out
  simp only
  rw [if_pos ⟨hx, hy, trivial⟩, if_pos hww]
  unfold Accum.normalized
  rw [hvv, mul_div_assoc, div_self (ne_of_gt hww), mul_one]

/-- Witness for the amended C3 at a concrete constant-`5` depth map. -/
theorem C3_constant_depth_amended_witness :
    (0 : ℝ) < 5 ∧ (∀ a b : ℕ, imgFive.data a b 0 = 5) ∧
      0 < imgZero.width ∧ 0 < imgZero.height ∧
      (bilateral_out imgFive imgZero 1 1).data 0 0 0 = 5 :=
  ⟨by norm_num, fun _ _ => rfl, by decide, by decide,
    C3_constant_depth_amended imgFive imgZero 1 5 1 0 0 (by norm_num)
      (fun _ _ => rfl) (by decide) (by decide)⟩

/-- C7 as stated is false: with `sigma = -1 ≤ 0` the filter does not
reject the call with an `InvalidArgument` error — it returns a normally
computed output image. -/
theorem C7_counterexample :
    ((-1 : ℝ) ≤ 0) ∧
      depthmap_bilateral_filter depthTwo guideTwo (-1) 1 =
        Except.ok (bilateral_out depthTwo guideTwo (-1) 1) :=
  ⟨by norm_num, rfl⟩

/-- C7 (amended): `depthmap_bilateral_filter` performs no validation of
`sigma`: for `sigma ≤ 0` it still returns (never raising
`InvalidArgument`) an output image sized to the guide with one channel. -/
theorem C7_no_sigma_validation (dm ci : Image) (sigma : ℝ) (ks : ℕ)
    (_hs : sigma ≤ 0) :
    depthmap_bilateral_filter dm ci sigma ks =
      Except.ok (bilateral_out dm ci sigma ks) ∧
    (bilateral_out dm ci sigma ks).width = ci.width ∧
    (bilateral_out dm ci sigma ks).height = ci.height ∧
    (bilateral_out dm ci sigma ks).channels = 1 :=
  ⟨rfl, rfl, rfl, rfl⟩

/-- Witness for the amended C7 at `sigma = -1`. -/
theorem C7_no_sigma_validation_witness :
    ((-1 : ℝ) ≤ 0) ∧
      (depthmap_bilateral_filter imgFive imgZero (-1) 1 =
          Except.ok (bilateral_out imgFive imgZero (-1) 1) ∧
        (bilateral_out imgFive imgZero (-1) 1).width = imgZero.width ∧
        (bilateral_out imgFive imgZero (-1) 1).height = imgZero.height ∧
        (bilateral_out imgFive imgZero (-1) 1).channels = 1) :=
  ⟨by norm_num, C7_no_sigma_validation imgFive imgZero (-1) 1 (by norm_num)⟩

/-- C8: `median_filter` raises `InvalidArgument` exactly on a null input
grid reference (producing no output grid), and on any non-null input
returns a newly built grid with the input's width and height.  This holds
for every behaviour `mf2d` of the external median primitive. -/
theorem C8_median_filter_null_check
    (mf2d : ℕ → ℕ → ℝ → ℝ → ℝ → (ℕ → ℕ → ℕ → ℝ) → ℕ → ℕ → ℕ → ℝ)
    (size : ℝ) (img : Image) :
    median_filter mf2d none size = Except.error "Null image given" ∧
    median_filter mf2d (some img) size =
      Except.ok (median_out mf2d img size) ∧
    (median_out mf2d img size).width = img.width ∧
    (median_out mf2d img size).height = img.height :=
  ⟨rfl, rfl, rfl, rfl⟩

/-- C10: with `kernel_size = 0` the window is only the centre pixel, so
the filter degenerates to nearest-neighbour resampling: the output at
`(x, y)` is the depth value at the clamped, truncated coordinate
`(clamp(scale_x·x, 0, dm_w-1), clamp(scale_y·y, 0, dm_h-1))` when that
value is not the sentinel `0.0`, and `0.0` otherwise. -/
theorem C10_kernel_size_zero (dm ci : Image) (sigma : ℝ) (x y : ℕ)
    (hx : x < ci.width) (hy : y < ci.height) :
    (bilateral_out dm ci sigma 0).data x y 0 =
      if dm.valueAt
          ⌊clamp ((dm.width : ℝ) / (ci.width : ℝ) * (x : ℝ)) 0
            ((dm.width : ℝ) - 1)⌋
          ⌊clamp ((dm.height : ℝ) / (ci.height : ℝ) * (y : ℝ)) 0
            ((dm.height : ℝ) - 1)⌋ 0 = 0
      then 0
      else
        dm.valueAt
          ⌊clamp ((dm.width : ℝ) / (ci.width : ℝ) * (x : ℝ)) 0
            ((dm.width : ℝ) - 1)⌋
          ⌊clamp ((dm.height : ℝ) / (ci.height : ℝ) * (y : ℝ)) 0
            ((dm.height : ℝ) - 1)⌋ 0 := by
  have hcx : ci_coord ci.width x 0 = (x : ℤ) := ci_coord_center ci.width x hx
  have hcy : ci_coord ci.height y 0 = (y : ℤ) := ci_coord_center ci.height y hy
  have hmx : mappedX dm ci x 0 =
      ⌊clamp ((dm.width : ℝ) / (ci.width : ℝ) * (x : ℝ)) 0
        ((dm.width : ℝ) - 1)⌋ := by
    unfold mappedX
    rw [hcx]
    unfold dm_coord
    push_cast
    rfl
  have hmy : mappedY dm ci y 0 =
      ⌊clamp ((dm.height : ℝ) / (ci.height : ℝ) * (y : ℝ)) 0
        ((dm.height : ℝ) - 1)⌋ := by
    unfold mappedY
    rw [hcy]
    unfold dm_coord
    push_cast
    rfl
  have hsamp : dmSample dm ci x y (0, 0) =
      dm.valueAt
        ⌊clamp ((dm.width : ℝ) / (ci.width : ℝ) * (x : ℝ)) 0
          ((dm.width : ℝ) - 1)⌋
        ⌊clamp ((dm.height : ℝ) / (ci.height : ℝ) * (y : ℝ)) 0
          ((dm.height : ℝ) - 1)⌋ 0 := by
    rw [dmSample_eq_data]
    show dm.data (mappedX dm ci x 0).toNat (mappedY dm ci y 0).toNat 0 = _
    rw [hmx, hmy]
    rfl
  have hacc : bilateralAccum dm ci sigma 0 x y =
      bilateralStep dm ci sigma x y { v := 0, w := 0 } (0, 0) := by
    unfold bilateralAccum
    rw [windowOffsets_zero, List.foldl_cons, List.foldl_nil]
  by_cases h0 : dmSample dm ci x y (0, 0) = 0
  · rw [if_pos (hsamp ▸ h0)]
    unfold bilateral_out
    simp only
    rw [if_pos ⟨hx, hy, trivial⟩, hacc,
      bilateralStep_skip dm ci sigma x y { v := 0, w := 0 } (0, 0) h0]
    norm_num
  · rw [if_neg (hsamp ▸ h0)]
    have hwt : neighbor_weight ci sigma x y 0 0 (ci_coord ci.width x 0)
        (ci_coord ci.height y 0) = 1 := by
      rw [hcx, hcy, neighbor_weight_closed]
      have hg2 : gaussian_2d ((0 : ℤ) : ℝ) ((0 : ℤ) : ℝ) sigma sigma = 1 := by
        simp [gaussian_2d]
      have hg1 : ∀ c : ℕ,
          gaussian (ci.valueAt (x : ℤ) (y : ℤ) c - ci.valueAt x y c) 0.1 = 1 :=
        fun c => by simp [gaussian]
      rw [hg2, one_mul]
      exact Finset.prod_eq_one fun c _ => hg1 c
    unfold bilateral_out
    simp only
    rw [if_pos ⟨hx, hy, trivial⟩, hacc,
      bilateralStep_accum dm ci sigma x y { v := 0, w := 0 } (0, 0) h0]
    simp only [show ((0 : ℤ), (0 : ℤ)).1 = 0 from rfl,
      show ((0 : ℤ), (0 : ℤ)).2 = 0 from rfl]
    rw [hwt, hsamp]
    unfold Accum.add Accum.normalized
    simp only
    norm_num

/-- Witness for C10 at concrete 1×1 images with a valid (non-sentinel)
depth value. -/
theorem C10_kernel_size_zero_witness :
    0 < imgZero.width ∧ 0 < imgZero.height ∧
      (bilateral_out imgFive imgZero 1 0).data 0 0 0 =
        if imgFive.valueAt
            ⌊clamp ((imgFive.width : ℝ) / (imgZero.width : ℝ) * ((0 : ℕ) : ℝ))
              0 ((imgFive.width : ℝ) - 1)⌋
            ⌊clamp ((imgFive.height : ℝ) / (imgZero.height : ℝ) * ((0 : ℕ) : ℝ))
              0 ((imgFive.height : ℝ) - 1)⌋ 0 = 0
        then 0
        else
          imgFive.valueAt
            ⌊clamp ((imgFive.width : ℝ) / (imgZero.width : ℝ) * ((0 : ℕ) : ℝ))
              0 ((imgFive.width : ℝ) - 1)⌋
            ⌊clamp ((imgFive.height : ℝ) / (imgZero.height : ℝ) * ((0 : ℕ) : ℝ))
              0 ((imgFive.height : ℝ) - 1)⌋ 0 :=
  ⟨by decide, by decide,
    C10_kernel_size_zero imgFive imgZero 1 0 0 (by decide) (by decide)⟩

end MVE

